import Mathlib

/-!
Verification of the query-construction logic of the Bleve search engine
adapter (`services/searchengine/bleveengine/bleve.go`).

The Go code builds bleve query trees out of term / match / numeric-range /
conjunction / disjunction / boolean primitives and runs them against three
indexes (posts, users, channels).  We embed the query trees as an inductive
type and the query-building functions as pure Lean functions; the opaque
index engine (open, close, search) is passed in as explicit function
arguments, and fallible Go returns become `Except`/`Option` values.
-/

namespace Bleve

/-- Embedding of the bleve query-tree primitives used by the adapter:
`NewTermQuery`, `NewPrefixQuery` (constructor `pfx`), `NewMatchQuery`
(constructor `matchQ`), `NewNumericRangeQuery` (min inclusive / max
exclusive bounds; the Go code casts int64 epoch milliseconds to float64,
we keep them as `Int`), `NewMatchAllQuery`, `NewConjunctionQuery`,
`NewDisjunctionQuery` and `NewBooleanQuery` with its must / must-not
clause lists.  A term/match/range query carries the field set by
`SetField`; a query on which `SetField` was never called has field `""`
(bleve then falls back to its default field). -/
inductive Query where
  | term (field value : String)
  | pfx (field value : String)
  | matchQ (field value : String)
  | numericRange (field : String) (min max : Option Int)
  | matchAll
  | conjunction (qs : List Query)
  | disjunction (qs : List Query)
  | boolean (must mustNot : List Query)

mutual

/-- Number of leaf queries in the tree whose field is `f`. -/
def Query.countField (f : String) : Query → Nat
  | .term fld _ => if fld = f then 1 else 0
  | .pfx fld _ => if fld = f then 1 else 0
  | .matchQ fld _ => if fld = f then 1 else 0
  | .numericRange fld _ _ => if fld = f then 1 else 0
  | .matchAll => 0
  | .conjunction qs => countFieldList f qs
  | .disjunction qs => countFieldList f qs
  | .boolean must mustNot => countFieldList f must + countFieldList f mustNot

/-- Sum of `Query.countField f` over a list of queries. -/
def countFieldList (f : String) : List Query → Nat
  | [] => 0
  | q :: qs => Query.countField f q + countFieldList f qs

end

/-- The must clauses of a boolean query (`[]` for any other node). -/
def Query.mustList : Query → List Query
  | .boolean must _ => must
  | _ => []

/-- The must-not clauses of a boolean query (`[]` for any other node). -/
def Query.mustNotList : Query → List Query
  | .boolean _ mustNot => mustNot
  | _ => []

/-- Embedding of `model.SearchParams` (only the fields this adapter
reads).  Go zero values become the field defaults. -/
structure SearchParams where
  Terms : String := ""
  OrTerms : Bool := false
  InChannels : List String := []
  ExcludedChannels : List String := []
  FromUsers : List String := []
  ExcludedUsers : List String := []
  OnDate : String := ""
  AfterDate : String := ""
  BeforeDate : String := ""
  ExcludedDate : String := ""
  ExcludedAfterDate : String := ""
  ExcludedBeforeDate : String := ""
  deriving DecidableEq, Repr

/-- Modelled from the spec: the date helpers of `model.SearchParams`
(`GetOnDateMillis` and friends) are not part of the sources under
verification; the spec only says a date string names a day and the
helpers return that day's bounds as epoch milliseconds.  We model a date
string as an abstract day index (an injective fold of its characters) and
a day as 86400000 milliseconds starting at `dayIndex * 86400000`. -/
def dateDayStartMillis (s : String) : Int :=
  ((s.foldl (fun a c => a * 256 + c.toNat) 1 : Nat) : Int) * 86400000

/-- Modelled from the spec: start and end (inclusive) of the day named by
`OnDate`, in epoch milliseconds — the closed range `[startOfDay, endOfDay]`. -/
def SearchParams.GetOnDateMillis (p : SearchParams) : Int × Int :=
  (dateDayStartMillis p.OnDate, dateDayStartMillis p.OnDate + 86399999)

/-- Modelled from the spec: lower bound for posts strictly after the day
named by `AfterDate` (start of the following day). -/
def SearchParams.GetAfterDateMillis (p : SearchParams) : Int :=
  dateDayStartMillis p.AfterDate + 86400000

/-- Modelled from the spec: upper bound for posts strictly before the day
named by `BeforeDate` (end of the preceding day). -/
def SearchParams.GetBeforeDateMillis (p : SearchParams) : Int :=
  dateDayStartMillis p.BeforeDate - 1

/-- Modelled from the spec: lower bound used by `ExcludedAfterDate`. -/
def SearchParams.GetExcludedAfterDateMillis (p : SearchParams) : Int :=
  dateDayStartMillis p.ExcludedAfterDate + 86400000

/-- Modelled from the spec: upper bound used by `ExcludedBeforeDate`. -/
def SearchParams.GetExcludedBeforeDateMillis (p : SearchParams) : Int :=
  dateDayStartMillis p.ExcludedBeforeDate - 1

/-- Modelled from the spec: closed single-day range for `ExcludedDate`. -/
def SearchParams.GetExcludedDateMillis (p : SearchParams) : Int × Int :=
  (dateDayStartMillis p.ExcludedDate, dateDayStartMillis p.ExcludedDate + 86399999)

/-- Embedding of `model.Channel` (only the `Id` field is read here). -/
structure Channel where
  Id : String
  deriving DecidableEq, Repr

/-- Embedding of `model.UserSearchOptions` (only `AllowFullNames` is read
here). -/
structure UserSearchOptions where
  AllowFullNames : Bool := false
  deriving DecidableEq, Repr

/-- Embedding of `model.Config.BleveSettings`; the Go fields are pointers
(`*bool`, `*string`) that this adapter always dereferences, so we embed
their pointees. -/
structure BleveSettings where
  EnableIndexing : Bool := false
  IndexDir : String := ""
  EnableSearching : Bool := false
  EnableAutocomplete : Bool := false
  deriving DecidableEq, Repr

/-- Embedding of the slice of `model.Config` read by this adapter. -/
structure Config where
  BleveSettings : BleveSettings
  deriving DecidableEq, Repr

/-- An opaque handle to an open bleve index. -/
structure Index where
  handle : Nat
  deriving DecidableEq, Repr

/-- Embedding of the `BleveEngine` struct.  The Go fields `postIndex`,
`userIndex`, `channelIndex` are interface values that start out nil, so we
embed them as `Option Index`.  The `jobServer` field is never read by the
code under verification and is omitted. -/
structure BleveEngine where
  postIndex : Option Index := none
  userIndex : Option Index := none
  channelIndex : Option Index := none
  cfg : Config
  indexSync : Bool := false
  deriving DecidableEq, Repr

/-- The capabilities this adapter consumes from the bleve library and the
filesystem: opening-or-creating an index at a path (`bleve.Open` falling
back to `bleve.New`, collapsed into one call since the adapter treats any
failure the same way) and closing an index. -/
structure BleveEnv where
  openIndex : String → Except String Index
  closeIndex : Index → Except String Unit

/-- Embedding of `createOrOpenIndex`: derives the index path from the
configured directory and the index name and asks the environment for a
handle (`filepath.Join` is embedded as separator concatenation). -/
def createOrOpenIndex (env : BleveEnv) (cfg : Config) (indexName : String) :
    Except String Index :=
  env.openIndex (cfg.BleveSettings.IndexDir ++ "/" ++ indexName ++ ".bleve")

/-- Embedding of `BleveEngine.IsActive`. -/
def IsActive (b : BleveEngine) : Bool :=
  b.cfg.BleveSettings.EnableIndexing && b.cfg.BleveSettings.IndexDir != ""

/-- Embedding of `BleveEngine.Start`: a no-op when indexing is disabled or
no directory is configured; otherwise opens the posts, users and channels
indexes in that order, stopping at (and returning) the first error, with
the handles opened so far already stored — Go assigns `b.postIndex` before
attempting the next open.  Returns the (possibly partially updated) engine
together with the `*model.AppError` result, embedded as `Option String`. -/
def Start (env : BleveEnv) (b : BleveEngine) : Option String × BleveEngine :=
  if !b.cfg.BleveSettings.EnableIndexing || b.cfg.BleveSettings.IndexDir == "" then
    (none, b)
  else
    match createOrOpenIndex env b.cfg "posts" with
    | .error e => (some e, b)
    | .ok postIdx =>
      let b := { b with postIndex := some postIdx }
      match createOrOpenIndex env b.cfg "users" with
      | .error e => (some e, b)
      | .ok userIdx =>
        let b := { b with userIndex := some userIdx }
        match createOrOpenIndex env b.cfg "channels" with
        | .error e => (some e, b)
        | .ok channelIdx => (none, { b with channelIndex := some channelIdx })

/-- Closing one possibly-nil index handle: Go calls `Close` directly on the
interface value, which panics when it is nil; the panic is embedded as an
error result. -/
def closeHandle (env : BleveEnv) : Option Index → Except String Unit
  | none => .error "panic: close of nil index"
  | some idx => env.closeIndex idx

/-- Embedding of `BleveEngine.Stop`: when the engine is active, closes the
post, user and channel indexes in that order and fails fast on the first
close error; the index handle fields themselves are never cleared.  When
the engine is inactive it does nothing. -/
def Stop (env : BleveEnv) (b : BleveEngine) : Option String × BleveEngine :=
  if IsActive b then
    match closeHandle env b.postIndex with
    | .error e => (some e, b)
    | .ok _ =>
      match closeHandle env b.userIndex with
      | .error e => (some e, b)
      | .ok _ =>
        match closeHandle env b.channelIndex with
        | .error e => (some e, b)
        | .ok _ => (none, b)
  else (none, b)

/-- Embedding of `BleveEngine.UpdateConfig`: when the engine is currently
inactive and the new configuration enables indexing with a non-empty
directory, it stops (ignoring the error), swaps the configuration and
starts (ignoring the error); otherwise it only swaps the configuration. -/
def UpdateConfig (env : BleveEnv) (b : BleveEngine) (cfg : Config) : BleveEngine :=
  if !IsActive b && cfg.BleveSettings.EnableIndexing && cfg.BleveSettings.IndexDir != "" then
    let b1 := (Stop env b).2
    let b2 := { b1 with cfg := cfg }
    (Start env b2).2
  else
    { b with cfg := cfg }

/-- Embedding of `BleveEngine.RefreshIndexes`: returns nil. -/
def RefreshIndexes (b : BleveEngine) : Option String × BleveEngine :=
  (none, b)

/-- Embedding of `BleveEngine.PurgeIndexes`: logs and returns nil. -/
def PurgeIndexes (b : BleveEngine) : Option String × BleveEngine :=
  (none, b)

/-- Embedding of `BleveEngine.DataRetentionDeleteIndexes`: ignores the
cutoff time (embedded as an integer timestamp) and returns nil. -/
def DataRetentionDeleteIndexes (b : BleveEngine) (cutoff : Int) :
    Option String × BleveEngine :=
  (none, b)

/-- Embedding of `BleveEngine.TestConfig`: logs and returns nil, ignoring
the configuration. -/
def TestConfig (b : BleveEngine) (cfg : Config) : Option String × BleveEngine :=
  (none, b)

/-- The global MUST filters that `SearchPosts` derives from a
`SearchParams` element (only ever invoked on the first element): an
`InChannels` disjunction of exact `ChannelId` terms, a `FromUsers`
disjunction of exact `UserId` terms, then the date filter — the closed
`OnDate` range when `OnDate` is set, otherwise a single `CreateAt` range
holding whichever of the `AfterDate` / `BeforeDate` bounds are present. -/
def searchPostsFilters (params : SearchParams) : List Bleve.Query :=
  (if params.InChannels.length > 0 then
    [Query.disjunction (params.InChannels.map fun channelId => Query.term "ChannelId" channelId)]
  else []) ++
  (if params.FromUsers.length > 0 then
    [Query.disjunction (params.FromUsers.map fun userId => Query.term "UserId" userId)]
  else []) ++
  (if params.OnDate != "" then
    [Query.numericRange "CreateAt" (some params.GetOnDateMillis.1) (some params.GetOnDateMillis.2)]
  else if params.AfterDate != "" || params.BeforeDate != "" then
    [Query.numericRange "CreateAt"
      (if params.AfterDate != "" then some params.GetAfterDateMillis else none)
      (if params.BeforeDate != "" then some params.GetBeforeDateMillis else none)]
  else [])

/-- The global MUST-NOT filters that `SearchPosts` derives from a
`SearchParams` element: `ExcludedChannels` and `ExcludedUsers`
disjunctions, then — only when `OnDate` is empty — the
`ExcludedAfterDate`, `ExcludedBeforeDate` and `ExcludedDate` ranges. -/
def searchPostsNotFilters (params : SearchParams) : List Bleve.Query :=
  (if params.ExcludedChannels.length > 0 then
    [Query.disjunction (params.ExcludedChannels.map fun channelId => Query.term "ChannelId" channelId)]
  else []) ++
  (if params.ExcludedUsers.length > 0 then
    [Query.disjunction (params.ExcludedUsers.map fun userId => Query.term "UserId" userId)]
  else []) ++
  (if params.OnDate != "" then []
  else
    (if params.ExcludedAfterDate != "" then
      [Query.numericRange "CreateAt" (some params.GetExcludedAfterDateMillis) none]
    else []) ++
    (if params.ExcludedBeforeDate != "" then
      [Query.numericRange "CreateAt" none (some params.GetExcludedBeforeDateMillis)]
    else []) ++
    (if params.ExcludedDate != "" then
      [Query.numericRange "CreateAt" (some params.GetExcludedDateMillis.1) (some params.GetExcludedDateMillis.2)]
    else []))

/-- The indexed loop of `SearchPosts` over `searchParams`: every element
contributes a `Message` match query on its `Terms`, and only the element
at index 0 contributes the global filters and not-filters.  Returns
`(termQueries, filters, notFilters)`. -/
def searchPostsLoop : List SearchParams → Nat →
    List Bleve.Query × List Bleve.Query × List Bleve.Query
  | [], _ => ([], [], [])
  | params :: rest, i =>
    let fs := if i = 0 then searchPostsFilters params else []
    let nfs := if i = 0 then searchPostsNotFilters params else []
    let (ts, fs', nfs') := searchPostsLoop rest (i + 1)
    (Query.matchQ "Message" params.Terms :: ts, fs ++ fs', nfs ++ nfs')

/-- The boolean query built by `SearchPosts`: a MUST disjunction of exact
`ChannelId` terms over the visible channels, a MUST combination of the
per-element term queries (disjunction when the first element's `OrTerms`
is set, conjunction otherwise), a MUST conjunction of the global filters
when there are any, and the global not-filters as MUST-NOT clauses.  Go
reads `searchParams[0]` unconditionally and panics on an empty slice; the
empty case is embedded as `none`. -/
def buildSearchPostsQuery (channels : List Channel)
    (searchParams : List SearchParams) : Option Bleve.Query :=
  match searchParams with
  | [] => none
  | params0 :: _ =>
    let channelDisjunctionQ :=
      Query.disjunction (channels.map fun channel => Query.term "ChannelId" channel.Id)
    let (termQueries, filters, notFilters) := searchPostsLoop searchParams 0
    let allTermsQ :=
      if params0.OrTerms then Query.disjunction termQueries
      else Query.conjunction termQueries
    let must := [channelDisjunctionQ, allTermsQ] ++
      (if filters.length > 0 then [Query.conjunction filters] else [])
    some (Query.boolean must notFilters)

/-- Embedding of `model.PostSearchMatches` (`map[string][]string`). -/
def PostSearchMatches := List (String × List String)

/-- Embedding of `BleveEngine.SearchPosts`.  The post index's `Search`
call is the `searchFn` argument, returning the ordered hit identifiers.
The `page` / `perPage` arguments are accepted and ignored, as in Go.  The
match-highlight map is created empty and never filled before being
returned. -/
def SearchPosts (searchFn : Bleve.Query → Except String (List String))
    (channels : List Channel) (searchParams : List SearchParams)
    (page perPage : Int) : Except String (List String × PostSearchMatches) :=
  match buildSearchPostsQuery channels searchParams with
  | none => .error "panic: runtime error: index out of range"
  | some q =>
    match searchFn q with
    | .error e => .error e
    | .ok hits => .ok (hits, ([] : List (String × List String)))

/-- The suggestion field a user-search prefix query targets, depending on
`options.AllowFullNames`. -/
def suggestionField (options : UserSearchOptions) : String :=
  if options.AllowFullNames then "SuggestionsWithFullname"
  else "SuggestionsWithoutFullname"

/-- The first (`uchan`) query of `SearchUsersInChannel`: an optional
case-folded prefix query on the suggestion field conjoined with an exact
`ChannelsIds` term for the channel. -/
def searchUsersInChannelConjQuery (channelId term : String)
    (options : UserSearchOptions) : Bleve.Query :=
  Query.conjunction
    ((if term != "" then [Query.pfx (suggestionField options) term.toLower] else []) ++
      [Query.term "ChannelsIds" channelId])

/-- The second (`nuchan`) query of `SearchUsersInChannel`: MUST the
optional prefix query and an exact `TeamsIds` term, MUST-NOT the channel's
`ChannelsIds` term, plus — when a non-empty restriction list is given — a
MUST disjunction with one term query per restricted channel id.  Go never
calls `SetField` on those restriction term queries, so their field is left
empty. -/
def searchUsersInChannelBoolQuery (teamId channelId : String)
    (restrictedToChannels : Option (List String)) (term : String)
    (options : UserSearchOptions) : Bleve.Query :=
  Query.boolean
    ((if term != "" then [Query.pfx (suggestionField options) term.toLower] else []) ++
      [Query.term "TeamsIds" teamId] ++
      (if (restrictedToChannels.getD []).length > 0 then
        [Query.disjunction ((restrictedToChannels.getD []).map fun channelId =>
          Query.term "" channelId)]
      else []))
    [Query.term "ChannelsIds" channelId]

/-- Embedding of `BleveEngine.SearchUsersInChannel`: short-circuits to two
empty lists when the restriction list is present but empty (`some []`,
Go's non-nil empty slice), otherwise runs the conjunction query and then
the boolean query against the user index and returns both hit id lists. -/
def SearchUsersInChannel (searchFn : Bleve.Query → Except String (List String))
    (teamId channelId : String) (restrictedToChannels : Option (List String))
    (term : String) (options : UserSearchOptions) :
    Except String (List String × List String) :=
  if restrictedToChannels = some [] then .ok ([], [])
  else
    match searchFn (searchUsersInChannelConjQuery channelId term options) with
    | .error e => .error e
    | .ok uchanIds =>
      match searchFn (searchUsersInChannelBoolQuery teamId channelId
          restrictedToChannels term options) with
      | .error e => .error e
      | .ok nuchanIds => .ok (uchanIds, nuchanIds)

/-- The query built by `SearchUsersInTeam` (after its short-circuit
guard): match-all when term, team id and restriction list are all absent;
otherwise a boolean query MUSTing the optional case-folded prefix query
and either the `ChannelsIds` restriction disjunction (when a non-empty
restriction list is given) or the `TeamsIds` term (when no restriction
list is given and the team id is non-empty). -/
def searchUsersInTeamQuery (teamId : String)
    (restrictedToChannels : Option (List String)) (term : String)
    (options : UserSearchOptions) : Bleve.Query :=
  if term = "" ∧ teamId = "" ∧ restrictedToChannels = none then
    Query.matchAll
  else
    Query.boolean
      ((if term != "" then [Query.pfx (suggestionField options) term.toLower] else []) ++
        (if (restrictedToChannels.getD []).length > 0 then
          [Query.disjunction ((restrictedToChannels.getD []).map fun channelId =>
            Query.term "ChannelsIds" channelId)]
        else if teamId != "" then [Query.term "TeamsIds" teamId] else []))
      []

/-- Embedding of `BleveEngine.SearchUsersInTeam`: short-circuits to an
empty list when the restriction list is present but empty, otherwise runs
the built query against the user index and returns the hit ids. -/
def SearchUsersInTeam (searchFn : Bleve.Query → Except String (List String))
    (teamId : String) (restrictedToChannels : Option (List String))
    (term : String) (options : UserSearchOptions) :
    Except String (List String) :=
  if restrictedToChannels = some [] then .ok []
  else
    match searchFn (searchUsersInTeamQuery teamId restrictedToChannels term options) with
    | .error e => .error e
    | .ok usersIds => .ok usersIds

/-! Helper lemmas about the query builders. -/

theorem countFieldList_append (f : String) (a b : List Query) :
    countFieldList f (a ++ b) = countFieldList f a + countFieldList f b := by
  induction a with
  | nil => simp [countFieldList]
  | cons q qs ih => simp [countFieldList, ih]; omega

theorem countFieldList_map_zero {α : Type} (f : String) (g : α → Query)
    (xs : List α) (h : ∀ x, Query.countField f (g x) = 0) :
    countFieldList f (xs.map g) = 0 := by
  induction xs with
  | nil => rfl
  | cons x xs ih => simp [countFieldList, h x, ih]

theorem searchPostsLoop_terms (ps : List SearchParams) (i : Nat) :
    (searchPostsLoop ps i).1 = ps.map fun p => Query.matchQ "Message" p.Terms := by
  induction ps generalizing i with
  | nil => rfl
  | cons p rest ih => simp [searchPostsLoop, ih]

theorem searchPostsLoop_pos (ps : List SearchParams) (i : Nat) (h : i ≠ 0) :
    (searchPostsLoop ps i).2 = ([], []) := by
  induction ps generalizing i with
  | nil => rfl
  | cons p rest ih =>
    have h1 : (searchPostsLoop rest (i + 1)).2.1 = [] := by rw [ih (i + 1) (by omega)]
    have h2 : (searchPostsLoop rest (i + 1)).2.2 = [] := by rw [ih (i + 1) (by omega)]
    simp [searchPostsLoop, if_neg h, h1, h2]

theorem searchPostsLoop_zero (p : SearchParams) (rest : List SearchParams) :
    (searchPostsLoop (p :: rest) 0).2 =
      (searchPostsFilters p, searchPostsNotFilters p) := by
  have h := searchPostsLoop_pos rest 1 (by omega)
  simp only [searchPostsLoop, if_pos rfl]
  have h1 : (searchPostsLoop rest 1).2.1 = [] := by rw [h]
  have h2 : (searchPostsLoop rest 1).2.2 = [] := by rw [h]
  simp [h1, h2]

/-- The shape of the boolean query built by `SearchPosts` on a non-empty
parameter list. -/
theorem buildSearchPostsQuery_cons (channels : List Channel)
    (p : SearchParams) (rest : List SearchParams) :
    buildSearchPostsQuery channels (p :: rest) =
      some (Query.boolean
        ([Query.disjunction (channels.map fun channel => Query.term "ChannelId" channel.Id),
          (if p.OrTerms then
            Query.disjunction ((p :: rest).map fun q => Query.matchQ "Message" q.Terms)
          else
            Query.conjunction ((p :: rest).map fun q => Query.matchQ "Message" q.Terms))] ++
          (if (searchPostsFilters p).length > 0 then
            [Query.conjunction (searchPostsFilters p)] else []))
        (searchPostsNotFilters p)) := by
  have ht := searchPostsLoop_terms (p :: rest) 0
  have hz := searchPostsLoop_zero p rest
  have h1 : (searchPostsLoop (p :: rest) 0).2.1 = searchPostsFilters p := by rw [hz]
  have h2 : (searchPostsLoop (p :: rest) 0).2.2 = searchPostsNotFilters p := by rw [hz]
  simp only [buildSearchPostsQuery, ht, h1, h2]

theorem countFieldList_if_term_disjunction (f g : String) (c : Prop)
    [Decidable c] (xs : List String) (hfg : g ≠ f) :
    countFieldList f
      (if c then [Query.disjunction (xs.map fun x => Query.term g x)] else []) = 0 := by
  split
  · have h0 : countFieldList f (xs.map fun x => Query.term g x) = 0 :=
      countFieldList_map_zero f _ xs (fun x => by simp [Query.countField, hfg])
    simp [countFieldList, Query.countField, h0]
  · rfl

theorem searchPostsFilters_onDate_count (p : SearchParams) (h : p.OnDate ≠ "") :
    countFieldList "CreateAt" (searchPostsFilters p) = 1 := by
  unfold searchPostsFilters
  rw [countFieldList_append, countFieldList_append,
    countFieldList_if_term_disjunction _ _ _ _ (by decide),
    countFieldList_if_term_disjunction _ _ _ _ (by decide)]
  have hb : (p.OnDate != "") = true := by simpa [bne_iff_ne] using h
  rw [if_pos hb]
  simp [countFieldList, Query.countField]

theorem searchPostsFilters_onDate_mem (p : SearchParams) (h : p.OnDate ≠ "") :
    Query.numericRange "CreateAt" (some p.GetOnDateMillis.1)
      (some p.GetOnDateMillis.2) ∈ searchPostsFilters p := by
  unfold searchPostsFilters
  have hb : (p.OnDate != "") = true := by simpa [bne_iff_ne] using h
  rw [if_pos hb]
  simp [List.mem_append]

theorem searchPostsFilters_onDate_length (p : SearchParams) (h : p.OnDate ≠ "") :
    (searchPostsFilters p).length > 0 :=
  List.length_pos.mpr (List.ne_nil_of_mem (searchPostsFilters_onDate_mem p h))

theorem searchPostsNotFilters_onDate_count (p : SearchParams) (h : p.OnDate ≠ "") :
    countFieldList "CreateAt" (searchPostsNotFilters p) = 0 := by
  unfold searchPostsNotFilters
  rw [countFieldList_append, countFieldList_append,
    countFieldList_if_term_disjunction _ _ _ _ (by decide),
    countFieldList_if_term_disjunction _ _ _ _ (by decide)]
  have hb : (p.OnDate != "") = true := by simpa [bne_iff_ne] using h
  rw [if_pos hb]
  rfl

theorem countField_channelDisjunction (f : String) (channels : List Channel)
    (hf : "ChannelId" ≠ f) :
    Query.countField f
      (Query.disjunction (channels.map fun channel => Query.term "ChannelId" channel.Id)) = 0 := by
  have h0 : countFieldList f (channels.map fun channel => Query.term "ChannelId" channel.Id) = 0 :=
    countFieldList_map_zero f _ channels (fun c => by simp [Query.countField, hf])
  simp [Query.countField, h0]

theorem countField_allTerms (f : String) (ps : List SearchParams) (b : Bool)
    (hf : "Message" ≠ f) :
    Query.countField f
      (if b then Query.disjunction (ps.map fun p => Query.matchQ "Message" p.Terms)
       else Query.conjunction (ps.map fun p => Query.matchQ "Message" p.Terms)) = 0 := by
  have h0 : countFieldList f (ps.map fun p => Query.matchQ "Message" p.Terms) = 0 :=
    countFieldList_map_zero f _ ps (fun p => by simp [Query.countField, hf])
  cases b <;> simp [Query.countField, h0]

theorem suggestionField_ne (options : UserSearchOptions) (f : String)
    (h1 : "SuggestionsWithFullname" ≠ f)
    (h2 : "SuggestionsWithoutFullname" ≠ f) :
    suggestionField options ≠ f := by
  unfold suggestionField
  split <;> assumption

/-! The claims. -/

/-- C3: for every channel visibility set and every non-empty `SearchParams`
list, the query built by `SearchPosts` has as a top-level MUST clause (its
first must clause) the disjunction of exact `ChannelId` term queries
covering exactly the visible channels, whatever the search parameters
contain. -/
theorem searchPosts_channel_visibility_must (channels : List Channel)
    (p : SearchParams) (rest : List SearchParams) :
    ∃ must nots,
      buildSearchPostsQuery channels (p :: rest) = some (Query.boolean must nots) ∧
      must.head? = some (Query.disjunction
        (channels.map fun channel => Query.term "ChannelId" channel.Id)) :=
  ⟨_, _, buildSearchPostsQuery_cons channels p rest, rfl⟩

/-- C4: `SearchPosts` builds one `Message` match query per `SearchParams`
element (the first included) and installs their combination — a
disjunction when the first element's `OrTerms` is true, a conjunction when
it is false — as the second top-level MUST clause. -/
theorem searchPosts_terms_combination (channels : List Channel)
    (p : SearchParams) (rest : List SearchParams) :
    ∃ must nots,
      buildSearchPostsQuery channels (p :: rest) = some (Query.boolean must nots) ∧
      must.get? 1 = some (if p.OrTerms then
          Query.disjunction ((p :: rest).map fun q => Query.matchQ "Message" q.Terms)
        else
          Query.conjunction ((p :: rest).map fun q => Query.matchQ "Message" q.Terms)) :=
  ⟨_, _, buildSearchPostsQuery_cons channels p rest, rfl⟩

/-- C1: the global filter and must-not clauses of the query built by
`SearchPosts` are derived only from the first `SearchParams` element: two
non-empty parameter lists with the same head produce the same must clauses
beyond the first two (the filter conjunction) and the same must-not
clauses, whatever the filter fields of the later elements are. -/
theorem searchPosts_filters_only_from_head (channels : List Channel)
    (P Q : List SearchParams) (mustP notP mustQ notQ : List Query)
    (hhead : P.head? = Q.head?)
    (hP : buildSearchPostsQuery channels P = some (Query.boolean mustP notP))
    (hQ : buildSearchPostsQuery channels Q = some (Query.boolean mustQ notQ)) :
    mustP.drop 2 = mustQ.drop 2 ∧ notP = notQ := by
  match P, Q with
  | [], _ => exact absurd hP (by simp [buildSearchPostsQuery])
  | p :: restP, [] => exact absurd hQ (by simp [buildSearchPostsQuery])
  | p :: restP, q :: restQ =>
    have hpq : p = q := by simpa using hhead
    subst hpq
    rw [buildSearchPostsQuery_cons] at hP hQ
    injection hP with hP
    injection hP with hPm hPn
    injection hQ with hQ
    injection hQ with hQm hQn
    subst hPm; subst hPn; subst hQm; subst hQn
    exact ⟨by simp, rfl⟩

/-- Concrete instantiation of C1: two two-element parameter lists sharing
their first element but with different filter fields on the second. -/
theorem searchPosts_filters_only_from_head_witness :
    ([({ Terms := "a", InChannels := ["c1"] } : SearchParams),
      { Terms := "b", InChannels := ["zz"] }].head? =
     [({ Terms := "a", InChannels := ["c1"] } : SearchParams),
      { Terms := "b", ExcludedUsers := ["u9"] }].head?) ∧
    (buildSearchPostsQuery [⟨"ch1"⟩]
        [{ Terms := "a", InChannels := ["c1"] }, { Terms := "b", InChannels := ["zz"] }] =
      some (Query.boolean
        [Query.disjunction [Query.term "ChannelId" "ch1"],
         Query.conjunction [Query.matchQ "Message" "a", Query.matchQ "Message" "b"],
         Query.conjunction [Query.disjunction [Query.term "ChannelId" "c1"]]] [])) ∧
    ([Query.disjunction [Query.term "ChannelId" "ch1"],
      Query.conjunction [Query.matchQ "Message" "a", Query.matchQ "Message" "b"],
      Query.conjunction [Query.disjunction [Query.term "ChannelId" "c1"]]].drop 2 =
     [Query.disjunction [Query.term "ChannelId" "ch1"],
      Query.conjunction [Query.matchQ "Message" "a", Query.matchQ "Message" "b"],
      Query.conjunction [Query.disjunction [Query.term "ChannelId" "c1"]]].drop 2 ∧
     ([] : List Query) = []) :=
  ⟨rfl, rfl,
    searchPosts_filters_only_from_head [⟨"ch1"⟩]
      [{ Terms := "a", InChannels := ["c1"] }, { Terms := "b", InChannels := ["zz"] }]
      [{ Terms := "a", InChannels := ["c1"] }, { Terms := "b", ExcludedUsers := ["u9"] }]
      _ _ _ _ rfl rfl rfl⟩

/-- C6: a restriction list that is present but empty (Go's non-nil empty
slice, embedded as `some []`) makes both user-search operations return
empty results with a nil error for every underlying search function — in
particular for one that always fails, so the index is never consulted. -/
theorem searchUsers_empty_restriction_short_circuit
    (searchFn : Bleve.Query → Except String (List String))
    (teamId channelId term : String) (options : UserSearchOptions) :
    SearchUsersInChannel searchFn teamId channelId (some []) term options =
      .ok ([], []) ∧
    SearchUsersInTeam searchFn teamId (some []) term options = .ok [] := by
  constructor <;> simp [SearchUsersInChannel, SearchUsersInTeam]

/-- C9: a successful `SearchPosts` call always returns an empty
match-highlight map; only the ordered post id list carries results. -/
theorem searchPosts_matches_empty
    (searchFn : Bleve.Query → Except String (List String))
    (channels : List Channel) (searchParams : List SearchParams)
    (page perPage : Int) (ids : List String) (ms : PostSearchMatches)
    (h : SearchPosts searchFn channels searchParams page perPage = .ok (ids, ms)) :
    ms = [] := by
  unfold SearchPosts at h
  split at h
  · exact absurd h (by simp)
  · split at h
    · exact absurd h (by simp)
    · injection h with h
      exact (congrArg Prod.snd h).symm

/-- Concrete instantiation of C9 on a one-hit search function. -/
theorem searchPosts_matches_empty_witness :
    SearchPosts (fun _ => .ok ["p1"]) [⟨"ch1"⟩] [{ Terms := "x" }] 0 10 =
      .ok (["p1"], ([] : PostSearchMatches)) ∧
    ([] : PostSearchMatches) = [] :=
  ⟨rfl, searchPosts_matches_empty (fun _ => .ok ["p1"]) [⟨"ch1"⟩]
    [{ Terms := "x" }] 0 10 ["p1"] [] rfl⟩

/-- C10: the maintenance operations `RefreshIndexes`, `PurgeIndexes`,
`DataRetentionDeleteIndexes` and `TestConfig` always succeed (nil error)
and leave the engine — index handles and configuration — unchanged, for
every engine state and every input. -/
theorem maintenance_operations_are_noops (b : BleveEngine) (cutoff : Int)
    (cfg : Config) :
    RefreshIndexes b = (none, b) ∧ PurgeIndexes b = (none, b) ∧
    DataRetentionDeleteIndexes b cutoff = (none, b) ∧
    TestConfig b cfg = (none, b) :=
  ⟨rfl, rfl, rfl, rfl⟩

/-- C2: when the first `SearchParams` element has a non-empty `OnDate`,
the query built by `SearchPosts` contains exactly one `CreateAt` date
clause — the closed single-day range from `GetOnDateMillis`, inside the
MUST filter conjunction — and none among the MUST-NOT clauses, whatever
the `AfterDate`, `BeforeDate`, `ExcludedDate`, `ExcludedAfterDate` and
`ExcludedBeforeDate` fields hold. -/
theorem searchPosts_onDate_single_date_clause (channels : List Channel)
    (p : SearchParams) (rest : List SearchParams) (h : p.OnDate ≠ "") :
    ∃ must nots fs,
      buildSearchPostsQuery channels (p :: rest) = some (Query.boolean must nots) ∧
      Query.conjunction fs ∈ must ∧
      Query.numericRange "CreateAt" (some p.GetOnDateMillis.1)
        (some p.GetOnDateMillis.2) ∈ fs ∧
      countFieldList "CreateAt" must = 1 ∧
      countFieldList "CreateAt" nots = 0 := by
  have hlen : (searchPostsFilters p).length > 0 := searchPostsFilters_onDate_length p h
  refine ⟨_, _, searchPostsFilters p, buildSearchPostsQuery_cons channels p rest,
    ?_, searchPostsFilters_onDate_mem p h, ?_, searchPostsNotFilters_onDate_count p h⟩
  · rw [if_pos hlen]
    simp [List.mem_append]
  · rw [if_pos hlen, countFieldList_append]
    have h1 : countFieldList "CreateAt"
        [Query.disjunction (channels.map fun channel => Query.term "ChannelId" channel.Id),
         (if p.OrTerms then
            Query.disjunction ((p :: rest).map fun q => Query.matchQ "Message" q.Terms)
          else
            Query.conjunction ((p :: rest).map fun q => Query.matchQ "Message" q.Terms))] = 0 := by
      show Query.countField "CreateAt" _ + (Query.countField "CreateAt" _ + 0) = 0
      rw [countField_channelDisjunction "CreateAt" channels (by decide),
        countField_allTerms "CreateAt" (p :: rest) p.OrTerms (by decide)]
    have h2 : countFieldList "CreateAt" [Query.conjunction (searchPostsFilters p)] = 1 := by
      show countFieldList "CreateAt" (searchPostsFilters p) + 0 = 1
      rw [searchPostsFilters_onDate_count p h]
    rw [h1, h2]

/-- Concrete instantiation of C2: `OnDate` set together with non-empty
`AfterDate` and `ExcludedBeforeDate` fields, which contribute nothing. -/
theorem searchPosts_onDate_single_date_clause_witness :
    ({ Terms := "x", OnDate := "2024-01-05", AfterDate := "2023-01-01",
       ExcludedBeforeDate := "2022-02-02" } : SearchParams).OnDate ≠ "" ∧
    ∃ must nots fs,
      buildSearchPostsQuery [⟨"ch1"⟩]
        [{ Terms := "x", OnDate := "2024-01-05", AfterDate := "2023-01-01",
           ExcludedBeforeDate := "2022-02-02" }] = some (Query.boolean must nots) ∧
      Query.conjunction fs ∈ must ∧
      Query.numericRange "CreateAt"
        (some ({ Terms := "x", OnDate := "2024-01-05", AfterDate := "2023-01-01",
                 ExcludedBeforeDate := "2022-02-02" } : SearchParams).GetOnDateMillis.1)
        (some ({ Terms := "x", OnDate := "2024-01-05", AfterDate := "2023-01-01",
                 ExcludedBeforeDate := "2022-02-02" } : SearchParams).GetOnDateMillis.2) ∈ fs ∧
      countFieldList "CreateAt" must = 1 ∧
      countFieldList "CreateAt" nots = 0 :=
  ⟨by decide, searchPosts_onDate_single_date_clause [⟨"ch1"⟩]
    { Terms := "x", OnDate := "2024-01-05", AfterDate := "2023-01-01",
      ExcludedBeforeDate := "2022-02-02" } [] (by decide)⟩

/-- C5 fails as stated: at a concrete input, the restriction MUST clause
of `SearchUsersInChannel`'s boolean query is a disjunction of term queries
whose field was never set (it is empty, not `ChannelsIds`), and no must
clause carries the `ChannelsIds` field at all. -/
theorem searchUsersInChannel_restriction_field_missing :
    (searchUsersInChannelBoolQuery "t" "c" (some ["r1"]) "" {}).mustList =
      [Query.term "TeamsIds" "t", Query.disjunction [Query.term "" "r1"]] ∧
    countFieldList "ChannelsIds"
      ((searchUsersInChannelBoolQuery "t" "c" (some ["r1"]) "" {}).mustList) = 0 :=
  ⟨rfl, rfl⟩

/-- C5 amended: with a non-empty restriction list, `SearchUsersInTeam`
adds a MUST disjunction of `ChannelsIds` term queries, one per restricted
channel id, while `SearchUsersInChannel` adds a MUST disjunction with one
term query per restricted channel id whose field is left unset (empty). -/
theorem searchUsers_restriction_clause_fields (teamId channelId term : String)
    (options : UserSearchOptions) (rs : List String) (h : rs ≠ []) :
    Query.disjunction (rs.map fun cid => Query.term "" cid) ∈
      (searchUsersInChannelBoolQuery teamId channelId (some rs) term options).mustList ∧
    Query.disjunction (rs.map fun cid => Query.term "ChannelsIds" cid) ∈
      (searchUsersInTeamQuery teamId (some rs) term options).mustList := by
  have hlen : rs.length > 0 := List.length_pos.mpr h
  constructor
  · simp only [searchUsersInChannelBoolQuery, Option.getD_some, Query.mustList]
    rw [if_pos hlen]
    simp [List.mem_append]
  · unfold searchUsersInTeamQuery
    rw [if_neg (by simp)]
    simp only [Option.getD_some, Query.mustList]
    rw [if_pos hlen]
    simp [List.mem_append]

/-- Concrete instantiation of the amended C5. -/
theorem searchUsers_restriction_clause_fields_witness :
    (["r1"] : List String) ≠ [] ∧
    (Query.disjunction [Query.term "" "r1"] ∈
      (searchUsersInChannelBoolQuery "t" "c" (some ["r1"]) "" {}).mustList ∧
     Query.disjunction [Query.term "ChannelsIds" "r1"] ∈
      (searchUsersInTeamQuery "t" (some ["r1"]) "" {}).mustList) :=
  ⟨by decide, searchUsers_restriction_clause_fields "t" "c" "" {} ["r1"] (by decide)⟩

/-- C7: in `SearchUsersInTeam`'s query, when no restriction list applies
(nil or empty) and the team id is non-empty, an exact `TeamsIds` term on
the team id is a MUST clause; when a non-empty restriction list is given,
no `TeamsIds` clause occurs anywhere in the query, for every term and
options; and when term, team id and restriction list are all absent the
query is match-all. -/
theorem searchUsersInTeam_team_filter_spec (teamId term : String)
    (options : UserSearchOptions) (restrictedToChannels : Option (List String)) :
    ((restrictedToChannels.getD []).length = 0 → teamId ≠ "" →
      Query.term "TeamsIds" teamId ∈
        (searchUsersInTeamQuery teamId restrictedToChannels term options).mustList) ∧
    ((restrictedToChannels.getD []).length > 0 →
      Query.countField "TeamsIds"
        (searchUsersInTeamQuery teamId restrictedToChannels term options) = 0) ∧
    (term = "" → teamId = "" → restrictedToChannels = none →
      searchUsersInTeamQuery teamId restrictedToChannels term options =
        Query.matchAll) := by
  refine ⟨?_, ?_, ?_⟩
  · intro h0 ht
    unfold searchUsersInTeamQuery
    rw [if_neg (fun hc => ht hc.2.1)]
    simp only [Query.mustList]
    have hno : ¬((restrictedToChannels.getD []).length > 0) := by omega
    rw [if_neg hno]
    have hb : (teamId != "") = true := by simpa [bne_iff_ne] using ht
    rw [if_pos hb]
    simp [List.mem_append]
  · intro hl
    unfold searchUsersInTeamQuery
    have hcond : ¬(term = "" ∧ teamId = "" ∧ restrictedToChannels = none) := by
      rintro ⟨-, -, hn⟩
      rw [hn] at hl
      simp at hl
    rw [if_neg hcond, if_pos hl]
    have h1 : countFieldList "TeamsIds"
        ((restrictedToChannels.getD []).map fun channelId =>
          Query.term "ChannelsIds" channelId) = 0 :=
      countFieldList_map_zero _ _ _ (fun x => by simp [Query.countField])
    have h2 : suggestionField options ≠ "TeamsIds" :=
      suggestionField_ne options _ (by decide) (by decide)
    split
    · simp [Query.countField, countFieldList, h1, h2]
    · simp [Query.countField, countFieldList, h1]
  · intro h1 h2 h3
    subst h1; subst h2; subst h3
    unfold searchUsersInTeamQuery
    rw [if_pos ⟨rfl, rfl, rfl⟩]

/-- Concrete instantiations of the three parts of C7. -/
theorem searchUsersInTeam_team_filter_spec_witness :
    Query.term "TeamsIds" "t1" ∈
      (searchUsersInTeamQuery "t1" none "" {}).mustList ∧
    Query.countField "TeamsIds"
      (searchUsersInTeamQuery "t1" (some ["r1"]) "" {}) = 0 ∧
    searchUsersInTeamQuery "" none "" {} = Query.matchAll :=
  ⟨(searchUsersInTeam_team_filter_spec "t1" "" {} none).1 rfl (by decide),
   (searchUsersInTeam_team_filter_spec "t1" "" {} (some ["r1"])).2.1 (by decide),
   (searchUsersInTeam_team_filter_spec "" "" {} none).2.2 rfl rfl rfl⟩

/-- C8: `UpdateConfig` on an inactive engine and a new configuration that
enables indexing with a non-empty directory performs stop, swaps the
configuration and performs start; in every other case it only swaps the
configuration, leaving the post, user and channel index handles
unchanged. -/
theorem updateConfig_spec (env : BleveEnv) (b : BleveEngine) (cfg : Config) :
    (IsActive b = false → cfg.BleveSettings.EnableIndexing = true →
      cfg.BleveSettings.IndexDir ≠ "" →
      UpdateConfig env b cfg = (Start env { (Stop env b).2 with cfg := cfg }).2) ∧
    (IsActive b = true ∨ cfg.BleveSettings.EnableIndexing = false ∨
        cfg.BleveSettings.IndexDir = "" →
      UpdateConfig env b cfg = { b with cfg := cfg } ∧
      (UpdateConfig env b cfg).postIndex = b.postIndex ∧
      (UpdateConfig env b cfg).userIndex = b.userIndex ∧
      (UpdateConfig env b cfg).channelIndex = b.channelIndex) := by
  constructor
  · intro h1 h2 h3
    unfold UpdateConfig
    have hc : (!IsActive b && cfg.BleveSettings.EnableIndexing &&
        cfg.BleveSettings.IndexDir != "") = true := by
      simp [h1, h2, bne_iff_ne, h3]
    rw [if_pos hc]
  · intro hor
    have hc : (!IsActive b && cfg.BleveSettings.EnableIndexing &&
        cfg.BleveSettings.IndexDir != "") = false := by
      rcases hor with h | h | h <;> simp [h, bne_iff_ne]
    unfold UpdateConfig
    rw [if_neg (by simp [hc])]
    exact ⟨rfl, rfl, rfl, rfl⟩

/-- An environment with trivially succeeding open and close calls, for
concrete instantiations. -/
def envW : BleveEnv := ⟨fun _ => .ok ⟨1⟩, fun _ => .ok ()⟩

/-- An engine whose configuration leaves indexing disabled. -/
def engineInactive : BleveEngine := { cfg := { BleveSettings := {} } }

/-- A configuration with indexing enabled and a non-empty directory. -/
def cfgEnabled : Config := { BleveSettings := { EnableIndexing := true, IndexDir := "idx" } }

/-- An engine that is active under `cfgEnabled`. -/
def engineActive : BleveEngine := { cfg := cfgEnabled }

/-- Concrete instantiations of both branches of C8. -/
theorem updateConfig_spec_witness :
    UpdateConfig envW engineInactive cfgEnabled =
      (Start envW { (Stop envW engineInactive).2 with cfg := cfgEnabled }).2 ∧
    (UpdateConfig envW engineActive cfgEnabled =
        { engineActive with cfg := cfgEnabled } ∧
      (UpdateConfig envW engineActive cfgEnabled).postIndex = engineActive.postIndex ∧
      (UpdateConfig envW engineActive cfgEnabled).userIndex = engineActive.userIndex ∧
      (UpdateConfig envW engineActive cfgEnabled).channelIndex = engineActive.channelIndex) :=
  ⟨(updateConfig_spec envW engineInactive cfgEnabled).1 (by decide) (by decide) (by decide),
   (updateConfig_spec envW engineActive cfgEnabled).2 (Or.inl (by decide))⟩

end Bleve
